import Mathlib

/-!
Verification of the infinite-scroll feed paginator of the `zito.dev` front-end
(`src/components/Post/Share/index.tsx`: `useInfiniteFeed`, `useScrollContingentFetch`,
`loadNext`, `checkScrollState`, `generatePostPlaceholders`, `generateFetchHandler`).

The pure functions are translated directly from the TypeScript source.  The state
of the infinite query (`react-query`, an external library) is modelled from the
spec (§3 Data Model, §4.1, §5) as an explicit state record driven by three events:
a call to `loadNext`, a successful fetch resolution, and a failed fetch resolution.
-/

namespace Zito

/-- A raw post JSON record.  Its fields are irrelevant to the paginator; an
abstract identifier stands for the record's content. -/
structure PostJson where
  id : Nat
deriving DecidableEq, Repr

/-- A rendered post item. -/
structure Post where
  id : Nat
deriving DecidableEq, Repr

/-- Modelled from the spec: `jsonToPost` (imported from `src/utils`, which is not
under `src/` here) converts a post JSON record into a concrete item; the claims
treat it as an opaque per-record conversion. -/
def jsonToPost (j : PostJson) : Post := Post.mk j.id

/-- The page shape (`FeedMetadataJson`): `posts`, optional `next` cursor,
optional `nextCount` hint. -/
structure FeedMetadataJson where
  posts : List PostJson
  next : Option Nat
  nextCount : Option Nat
deriving DecidableEq, Repr

/-- A placeholder post: `{ isPlaceholder: true, key: ... }`. -/
structure PlaceholderPost where
  isPlaceholder : Bool
  key : String
deriving DecidableEq, Repr

/-- One entry of `FeedItems` (`(Post | PlaceholderPost)[]` in the source). -/
inductive FeedItem where
  | post (p : Post)
  | placeholder (ph : PlaceholderPost)
deriving DecidableEq, Repr

/-- The page context handed to `useInfiniteFeed`. -/
structure PageContext where
  feedType : String
  feedId : Option String
  pageIndex : Nat
  feedMetadata : FeedMetadataJson
deriving DecidableEq, Repr

namespace constants

/-- Modelled from the spec: the fixed default page size (`postsPerFeedPage` from
`node/constants`, a repository module not present under `src/`).  The spec fixes
no numeric value; any positive page size behaves alike, it is fixed at 8 here. -/
def postsPerFeedPage : Nat := 8

end constants

/-- Decimal digit character, `'0'` + d. -/
def digitChar (d : Nat) : Char := Char.ofNat (48 + d)

/-- Fuelled decimal rendering of a natural number (the fuel bounds the number of
digits, as in core's `Nat.toDigitsCore`); models JavaScript template-literal
number formatting. -/
def decimalDigitsCore (fuel n : Nat) : List Char :=
  match fuel with
  | 0 => []
  | fuel + 1 =>
    if n < 10 then [digitChar n]
    else decimalDigitsCore fuel (n / 10) ++ [digitChar (n % 10)]

/-- Decimal digits of `n`, most significant first. -/
def decimalDigits (n : Nat) : List Char := decimalDigitsCore (n + 1) n

/-- Decimal string of a natural number, as interpolated by `${idx}` in the source. -/
def natToString (n : Nat) : String := String.mk (decimalDigits n)

/-- JavaScript `count || dflt` on an optional number: `undefined` and `0` are
falsy, any other count is used as is. -/
def jsOrDefault (count : Option Nat) (dflt : Nat) : Nat :=
  match count with
  | some c => if c = 0 then dflt else c
  | none => dflt

/-- `generatePostPlaceholders` from the source:
`Array(count || constants.postsPerFeedPage).fill(0).map((_, idx) =>
({ isPlaceholder: true, key: keyPrefix-idx }))`. -/
def generatePostPlaceholders (keyPref : String) (count : Option Nat) :
    List PlaceholderPost :=
  (List.range (jsOrDefault count constants.postsPerFeedPage)).map
    (fun idx => PlaceholderPost.mk true ((keyPref ++ "-") ++ natToString idx))

/-- An HTTP response as seen by the fetch handler: a success flag and the parsed
page body. -/
structure Response where
  ok : Bool
  body : FeedMetadataJson
deriving DecidableEq, Repr

/-- The handler produced by `generateFetchHandler baseUrl`, applied to a transport
`fetchFn` and the optional `pageParam` (destructuring default `0` in the source).
The first component records the resource location actually requested; the second
is the handler's outcome: `Except.error` models the thrown
`Error("Failed to fetch ...")` on a non-ok response, `Except.ok` the parsed body. -/
def generateFetchHandler (baseUrl : String) (fetchFn : String → Response)
    (pageParam? : Option Nat) : String × Except String FeedMetadataJson :=
  let pageParam := pageParam?.getD 0
  let url := (baseUrl ++ "-") ++ (natToString pageParam ++ ".json")
  let response := fetchFn url
  if !response.ok then (url, Except.error ("Failed to fetch " ++ url))
  else (url, Except.ok response.body)

/-- `true` exactly when the fetch handler threw. -/
def fetchFailed (r : Except String FeedMetadataJson) : Bool :=
  match r with
  | Except.error _ => true
  | Except.ok _ => false

/-- Modelled from the spec (§3 Feed State): the state of the infinite query for
one feed identity — the insertion-ordered fetched pages, the in-flight flag, the
recorded fetch error, and (model bookkeeping) the cursors of the network requests
issued so far, oldest first. -/
structure FeedQueryState where
  pages : List FeedMetadataJson
  isFetchingNextPage : Bool
  error : Bool
  requests : List Nat
deriving DecidableEq, Repr

/-- `getNextPageParam: lastPage => lastPage.next` from the query options. -/
def getNextPageParam (lastPage : FeedMetadataJson) : Option Nat := lastPage.next

/-- Modelled from the spec: a next page exists exactly when `getNextPageParam`
yields a cursor on the most recently fetched page. -/
def hasNextPage (s : FeedQueryState) : Bool :=
  match s.pages.getLast? with
  | some p => (getNextPageParam p).isSome
  | none => false

/-- Modelled from the spec: starting a next-page fetch marks the query in flight
and issues one network request for the cursor of the most recently fetched page. -/
def fetchNextPage (s : FeedQueryState) : FeedQueryState :=
  match s.pages.getLast? with
  | some p =>
    match p.next with
    | some c => FeedQueryState.mk s.pages true s.error (s.requests ++ [c])
    | none => s
  | none => s

/-- `loadNext` from the source: fetch the next page only when a next page exists,
no fetch is in flight, and no error is recorded. -/
def loadNext (s : FeedQueryState) : FeedQueryState :=
  if hasNextPage s && !s.isFetchingNextPage && !s.error then fetchNextPage s
  else s

/-- Modelled from the spec: a successful fetch resolution appends the received
page and clears the in-flight flag; it can only occur while a fetch is in flight. -/
def resolveSuccess (s : FeedQueryState) (page : FeedMetadataJson) : FeedQueryState :=
  if s.isFetchingNextPage then
    FeedQueryState.mk (s.pages ++ [page]) false s.error s.requests
  else s

/-- Modelled from the spec: a failed fetch resolution records the error and clears
the in-flight flag, leaving the fetched pages untouched. -/
def resolveFailure (s : FeedQueryState) : FeedQueryState :=
  if s.isFetchingNextPage then
    FeedQueryState.mk s.pages false true s.requests
  else s

/-- The three external events that drive a feed's state. -/
inductive FeedEvent where
  | callLoadNext
  | success (page : FeedMetadataJson)
  | failure
deriving DecidableEq, Repr

/-- One event transition. -/
def step (s : FeedQueryState) : FeedEvent → FeedQueryState
  | FeedEvent.callLoadNext => loadNext s
  | FeedEvent.success page => resolveSuccess s page
  | FeedEvent.failure => resolveFailure s

/-- Run a sequence of events, oldest first. -/
def run (s : FeedQueryState) : List FeedEvent → FeedQueryState
  | [] => s
  | e :: es => run (step s e) es

/-- The state established by `useInfiniteFeed`'s `initialData`: the single
caller-supplied initial page, nothing in flight, no error, no request issued. -/
def initialFeedState (pc : PageContext) : FeedQueryState :=
  FeedQueryState.mk [pc.feedMetadata] false false []

/-- The `feedItems` memo from `useInfiniteFeed`:
`feedQuery.data?.pages.map(page => page.posts).flat() || pageContext.feedMetadata.posts`,
mapped through `jsonToPost`, with placeholders appended while a next page is being
fetched, their count hinted by the last fetched page's `nextCount`.  (An empty
array is truthy in JavaScript, so the fallback fires only when `data` is absent.) -/
def feedItems (pc : PageContext) (dataPages? : Option (List FeedMetadataJson))
    (isFetchingNextPage : Bool) : List FeedItem :=
  let jsonPostList : List PostJson :=
    match dataPages? with
    | some pages => (pages.map (fun page => page.posts)).flatten
    | none => pc.feedMetadata.posts
  let list : List FeedItem := jsonPostList.map (fun j => FeedItem.post (jsonToPost j))
  if isFetchingNextPage then
    let lastPage? : Option FeedMetadataJson :=
      match dataPages? with
      | some pages => pages.getLast?
      | none => none
    list ++ (generatePostPlaceholders "next" (lastPage?.bind
      (fun p => p.nextCount))).map FeedItem.placeholder
  else list

/-- The merged list the hook hands to its consumer, read off the query state
(`data` is always present in the hook, `initialData` being set). -/
def mergedItems (pc : PageContext) (s : FeedQueryState) : List FeedItem :=
  feedItems pc (some s.pages) s.isFetchingNextPage

/-- The items contributed by one page: its posts, converted. -/
def pageItems (p : FeedMetadataJson) : List FeedItem :=
  p.posts.map (fun j => FeedItem.post (jsonToPost j))

/-- The bounding rectangle of the observed feed element; only the bottom edge
matters to the scroll check. -/
structure DOMRect where
  bottom : Int
deriving DecidableEq, Repr

/-- `checkScrollState` from the source: when the feed element ref is attached and
its bottom edge is at most `window.innerHeight`, invoke `loadNext`; otherwise do
nothing. -/
def checkScrollState (elem? : Option DOMRect) (innerHeight : Int)
    (s : FeedQueryState) : FeedQueryState :=
  match elem? with
  | some rect => if rect.bottom ≤ innerHeight then loadNext s else s
  | none => s

/-- The `scroll` listener installed by `useScrollContingentFetch`: it just calls
`checkScrollState`. -/
def onScroll (elem? : Option DOMRect) (innerHeight : Int)
    (s : FeedQueryState) : FeedQueryState :=
  checkScrollState elem? innerHeight s

/-- The check `useScrollContingentFetch` performs once per render pass (the bare
`checkScrollState()` call in the hook body). -/
def renderPassCheck (elem? : Option DOMRect) (innerHeight : Int)
    (s : FeedQueryState) : FeedQueryState :=
  checkScrollState elem? innerHeight s

/-! ### Helper lemmas: decimal rendering is injective, so placeholder keys are distinct -/

theorem decimalDigitsCore_congr (f1 : Nat) : ∀ (f2 n : Nat), n < f1 → n < f2 →
    decimalDigitsCore f1 n = decimalDigitsCore f2 n := by
  induction f1 with
  | zero => intro f2 n h1 h2; omega
  | succ f1 ih =>
    intro f2 n h1 h2
    cases f2 with
    | zero => omega
    | succ f2 =>
      simp only [decimalDigitsCore]
      by_cases h : n < 10
      · simp [h]
      · simp only [if_neg h]
        have hdiv : n / 10 < n := Nat.div_lt_self (by omega) (by omega)
        rw [ih f2 (n / 10) (by omega) (by omega)]

theorem decimalDigits_small (n : Nat) (h : n < 10) : decimalDigits n = [digitChar n] := by
  simp [decimalDigits, decimalDigitsCore, h]

theorem decimalDigits_large (n : Nat) (h : ¬ n < 10) :
    decimalDigits n = decimalDigits (n / 10) ++ [digitChar (n % 10)] := by
  have hdiv : n / 10 < n := Nat.div_lt_self (by omega) (by omega)
  show decimalDigitsCore (n + 1) n = _
  rw [show decimalDigitsCore (n + 1) n
        = if n < 10 then [digitChar n]
          else decimalDigitsCore n (n / 10) ++ [digitChar (n % 10)] from rfl]
  rw [if_neg h, decimalDigitsCore_congr n (n / 10 + 1) (n / 10) (by omega) (by omega)]
  rfl

/-- The numeric value read back from a digit string; a left inverse of
`decimalDigits`. -/
def digitsVal (l : List Char) : Nat :=
  l.foldl (fun acc c => acc * 10 + (c.toNat - 48)) 0

theorem digitChar_val : ∀ m : Nat, m < 10 → (digitChar m).toNat - 48 = m := by decide

theorem digitsVal_decimalDigits : ∀ n : Nat, digitsVal (decimalDigits n) = n := by
  intro n
  induction n using Nat.strong_induction_on with
  | _ n ih =>
    by_cases h : n < 10
    · rw [decimalDigits_small n h]
      simp [digitsVal, digitChar_val n h]
    · rw [decimalDigits_large n h]
      have hdiv : n / 10 < n := Nat.div_lt_self (by omega) (by omega)
      have hv := ih (n / 10) hdiv
      have hm : (digitChar (n % 10)).toNat - 48 = n % 10 :=
        digitChar_val (n % 10) (Nat.mod_lt n (by omega))
      simp only [digitsVal, List.foldl_append, List.foldl] at hv ⊢
      rw [hv, hm]
      omega

theorem decimalDigits_inj (a b : Nat) (h : decimalDigits a = decimalDigits b) : a = b := by
  have ha := digitsVal_decimalDigits a
  rw [h, digitsVal_decimalDigits b] at ha
  omega

theorem natToString_inj (a b : Nat) (h : natToString a = natToString b) : a = b :=
  decimalDigits_inj a b (congrArg String.data h)

theorem placeholderKey_inj (keyPref : String) (a b : Nat)
    (h : (keyPref ++ "-") ++ natToString a = (keyPref ++ "-") ++ natToString b) :
    a = b := by
  apply natToString_inj
  have hd := congrArg String.data h
  simp only [String.data_append] at hd
  have := List.append_cancel_left hd
  exact congrArg String.mk this

theorem generatePostPlaceholders_keys_nodup (keyPref : String) (count : Option Nat) :
    ((generatePostPlaceholders keyPref count).map (fun ph => ph.key)).Nodup := by
  unfold generatePostPlaceholders
  rw [List.map_map]
  refine List.Nodup.map ?_ (List.nodup_range _)
  intro a b hab
  exact placeholderKey_inj keyPref a b hab

/-! ### Helper lemmas: the feed state machine -/

theorem fetchNextPage_pages (s : FeedQueryState) : (fetchNextPage s).pages = s.pages := by
  unfold fetchNextPage
  split <;> try split
  all_goals rfl

theorem loadNext_pages (s : FeedQueryState) : (loadNext s).pages = s.pages := by
  unfold loadNext
  split
  · exact fetchNextPage_pages s
  · rfl

theorem step_pages_head (s : FeedQueryState) (e : FeedEvent) (x : FeedMetadataJson)
    (h : s.pages.head? = some x) : (step s e).pages.head? = some x := by
  cases e with
  | callLoadNext =>
    show (loadNext s).pages.head? = some x
    rw [loadNext_pages]
    exact h
  | success page =>
    show (resolveSuccess s page).pages.head? = some x
    unfold resolveSuccess
    split
    · cases hp : s.pages with
      | nil => rw [hp] at h; simp at h
      | cons a t =>
        rw [hp] at h
        simp only [List.head?_cons, Option.some.injEq] at h
        simp [hp, h]
    · exact h
  | failure =>
    show (resolveFailure s).pages.head? = some x
    unfold resolveFailure
    split
    · exact h
    · exact h

theorem run_pages_head (x : FeedMetadataJson) :
    ∀ (es : List FeedEvent) (s : FeedQueryState), s.pages.head? = some x →
      (run s es).pages.head? = some x
  | [], _, h => h
  | e :: es, s, h => run_pages_head x es (step s e) (step_pages_head s e x h)

theorem step_frozen (s : FeedQueryState) (h1 : s.isFetchingNextPage = false)
    (h2 : s.error = true ∨ hasNextPage s = false) :
    ∀ e : FeedEvent, step s e = s := by
  intro e
  cases e with
  | callLoadNext =>
    show loadNext s = s
    unfold loadNext
    split
    · rename_i hc
      rcases h2 with h2 | h2 <;> rw [h2] at hc <;> simp at hc
    · rfl
  | success page =>
    show resolveSuccess s page = s
    unfold resolveSuccess
    rw [if_neg (by rw [h1]; exact Bool.false_ne_true)]
  | failure =>
    show resolveFailure s = s
    unfold resolveFailure
    rw [if_neg (by rw [h1]; exact Bool.false_ne_true)]

theorem run_frozen (s : FeedQueryState) (h1 : s.isFetchingNextPage = false)
    (h2 : s.error = true ∨ hasNextPage s = false) :
    ∀ es : List FeedEvent, run s es = s
  | [] => rfl
  | e :: es => by
    show run (step s e) es = s
    rw [step_frozen s h1 h2 e]
    exact run_frozen s h1 h2 es

/-! ### Concrete sample data for witnesses -/

/-- A first page: two posts, next cursor 1, hinting 2 posts on the next page. -/
def pageA : FeedMetadataJson := FeedMetadataJson.mk [PostJson.mk 0, PostJson.mk 1] (some 1) (some 2)

/-- A final page: one post and no next cursor. -/
def pageB : FeedMetadataJson := FeedMetadataJson.mk [PostJson.mk 2] none none

/-- A page whose `nextCount` hint is zero. -/
def pageZeroCount : FeedMetadataJson := FeedMetadataJson.mk [] (some 2) (some 0)

/-- A concrete page context for the `index` feed carrying `pageA`. -/
def pcEx : PageContext := PageContext.mk "index" none 0 pageA

/-- A state ready to fetch: one page with a next cursor, nothing in flight. -/
def readyState : FeedQueryState := FeedQueryState.mk [pageA] false false []

/-- A state with a fetch in flight for cursor 1. -/
def fetchingState : FeedQueryState := FeedQueryState.mk [pageA] true false [1]

/-! ### Claims -/

/-- C1: after any sequence of events starting from the initial state, whenever no
fetch is in flight the merged item list (`feedItems`) equals the concatenation,
in fetch order, of each fetched page's items, and the first page is always the
caller-supplied initial page. -/
theorem merged_is_ordered_concat (pc : PageContext) (es : List FeedEvent)
    (h : (run (initialFeedState pc) es).isFetchingNextPage = false) :
    (run (initialFeedState pc) es).pages.head? = some pc.feedMetadata ∧
    mergedItems pc (run (initialFeedState pc) es)
      = (((run (initialFeedState pc) es).pages).map pageItems).flatten := by
  refine ⟨run_pages_head pc.feedMetadata es (initialFeedState pc) rfl, ?_⟩
  unfold mergedItems
  rw [h]
  unfold feedItems
  simp only [List.map_flatten, List.map_map, if_neg Bool.false_ne_true]
  congr 1

/-- Witness for C1: a concrete history that fetches one further page. -/
theorem merged_is_ordered_concat_witness :
    (run (initialFeedState pcEx) [FeedEvent.callLoadNext, FeedEvent.success pageB]).pages.head?
        = some pcEx.feedMetadata ∧
    mergedItems pcEx (run (initialFeedState pcEx) [FeedEvent.callLoadNext, FeedEvent.success pageB])
      = (((run (initialFeedState pcEx)
            [FeedEvent.callLoadNext, FeedEvent.success pageB]).pages).map pageItems).flatten :=
  merged_is_ordered_concat pcEx [FeedEvent.callLoadNext, FeedEvent.success pageB] (by decide)

/-- C2: `loadNext` starts a fetch (issuing exactly one request and marking the
query in flight) precisely when a next page exists, no fetch is in flight and no
error is recorded; when any of the three conditions fails it leaves the state
unchanged. -/
theorem loadNext_fetches_iff (s : FeedQueryState) :
    ((hasNextPage s = true ∧ s.isFetchingNextPage = false ∧ s.error = false) →
      (loadNext s).requests.length = s.requests.length + 1 ∧
      (loadNext s).isFetchingNextPage = true) ∧
    (¬ (hasNextPage s = true ∧ s.isFetchingNextPage = false ∧ s.error = false) →
      loadNext s = s) := by
  constructor
  · rintro ⟨h1, h2, h3⟩
    unfold loadNext
    split
    · unfold hasNextPage at h1
      cases hl : s.pages.getLast? with
      | none => rw [hl] at h1; simp at h1
      | some p =>
        rw [hl] at h1
        simp only [getNextPageParam, Option.isSome_iff_exists] at h1
        obtain ⟨c, hn⟩ := h1
        simp [fetchNextPage, hl, hn]
    · rename_i hc
      exact absurd (by simp [h1, h2, h3]) hc
  · intro h
    unfold loadNext
    split
    · rename_i hc
      exfalso
      apply h
      simp only [Bool.and_eq_true, Bool.not_eq_true'] at hc
      exact ⟨hc.1.1, hc.1.2, hc.2⟩
    · rfl

/-- Witness for C2: from the concrete ready state one request is issued. -/
theorem loadNext_fetches_iff_witness :
    (loadNext readyState).requests.length = readyState.requests.length + 1 ∧
    (loadNext readyState).isFetchingNextPage = true :=
  (loadNext_fetches_iff readyState).1 (by refine ⟨rfl, rfl, rfl⟩)

/-- C4: while a fetch is outstanding, `loadNext` is a no-op, so two calls in
immediate succession leave the state — in particular the list of issued network
requests — unchanged: only the already-outstanding request exists. -/
theorem loadNext_noop_while_inFlight (s : FeedQueryState)
    (h : s.isFetchingNextPage = true) :
    loadNext s = s ∧ loadNext (loadNext s) = s ∧
    (loadNext (loadNext s)).requests = s.requests := by
  have h1 : loadNext s = s := by
    unfold loadNext
    split
    · rename_i hc
      rw [h] at hc
      simp at hc
    · rfl
  exact ⟨h1, by rw [h1, h1], by rw [h1, h1]⟩

/-- Witness for C4 at the concrete in-flight state. -/
theorem loadNext_noop_while_inFlight_witness :
    loadNext fetchingState = fetchingState ∧
    loadNext (loadNext fetchingState) = fetchingState ∧
    (loadNext (loadNext fetchingState)).requests = fetchingState.requests :=
  loadNext_noop_while_inFlight fetchingState rfl

/-- C5: a failed fetch preserves every previously fetched page, the merged list
equals exactly the one computed from the pages fetched before the failure, and
afterwards every event — in particular every further `loadNext` call — leaves the
state unchanged, since no transition of this hook clears the error. -/
theorem failure_preserves_and_stops (pc : PageContext) (s : FeedQueryState)
    (es : List FeedEvent) (h : s.isFetchingNextPage = true) :
    (resolveFailure s).pages = s.pages ∧
    mergedItems pc (resolveFailure s) = feedItems pc (some s.pages) false ∧
    run (resolveFailure s) es = resolveFailure s := by
  have hr : resolveFailure s = FeedQueryState.mk s.pages false true s.requests := by
    unfold resolveFailure
    rw [if_pos h]
  refine ⟨by rw [hr], by rw [hr]; rfl, ?_⟩
  apply run_frozen
  · rw [hr]
  · left
    rw [hr]

/-- Witness for C5: failing the concrete in-flight fetch, then calling
`loadNext` twice more. -/
theorem failure_preserves_and_stops_witness :
    (resolveFailure fetchingState).pages = fetchingState.pages ∧
    mergedItems pcEx (resolveFailure fetchingState)
      = feedItems pcEx (some fetchingState.pages) false ∧
    run (resolveFailure fetchingState) [FeedEvent.callLoadNext, FeedEvent.callLoadNext]
      = resolveFailure fetchingState :=
  failure_preserves_and_stops pcEx fetchingState
    [FeedEvent.callLoadNext, FeedEvent.callLoadNext] rfl

/-- C6: once a fetch resolves with a page carrying no next cursor, the state has
no next page, every subsequent event sequence leaves it unchanged, and `loadNext`
is a no-op on every reachable state — the feed is permanently terminal. -/
theorem no_cursor_terminal (s : FeedQueryState) (page : FeedMetadataJson)
    (es : List FeedEvent) (hf : s.isFetchingNextPage = true) (hn : page.next = none) :
    hasNextPage (resolveSuccess s page) = false ∧
    run (resolveSuccess s page) es = resolveSuccess s page ∧
    loadNext (run (resolveSuccess s page) es) = run (resolveSuccess s page) es := by
  have hr : resolveSuccess s page
      = FeedQueryState.mk (s.pages ++ [page]) false s.error s.requests := by
    unfold resolveSuccess
    rw [if_pos hf]
  have hnp : hasNextPage (resolveSuccess s page) = false := by
    rw [hr]
    simp [hasNextPage, List.getLast?_concat, getNextPageParam, hn]
  have hrun : run (resolveSuccess s page) es = resolveSuccess s page :=
    run_frozen (resolveSuccess s page) (by rw [hr]) (Or.inr hnp) es
  refine ⟨hnp, hrun, ?_⟩
  rw [hrun]
  exact step_frozen (resolveSuccess s page) (by rw [hr]) (Or.inr hnp) FeedEvent.callLoadNext

/-- Witness for C6: delivering the cursor-less `pageB` to the concrete in-flight
state and calling `loadNext` afterwards. -/
theorem no_cursor_terminal_witness :
    hasNextPage (resolveSuccess fetchingState pageB) = false ∧
    run (resolveSuccess fetchingState pageB) [FeedEvent.callLoadNext]
      = resolveSuccess fetchingState pageB ∧
    loadNext (run (resolveSuccess fetchingState pageB) [FeedEvent.callLoadNext])
      = run (resolveSuccess fetchingState pageB) [FeedEvent.callLoadNext] :=
  no_cursor_terminal fetchingState pageB [FeedEvent.callLoadNext] rfl rfl

/-- C7: the fetch handler requests exactly `baseUrl + "-" + pageCursor + ".json"`
(cursor defaulting to 0 when absent), it throws exactly when the response is
non-ok, and a next-page fetch issues its request for the `next` cursor of the
most recently fetched page. -/
theorem fetch_protocol (baseUrl : String) (fetchFn : String → Response)
    (pageParam? : Option Nat) (s : FeedQueryState) (c : Nat)
    (h : s.pages.getLast?.bind (fun p => getNextPageParam p) = some c) :
    (generateFetchHandler baseUrl fetchFn pageParam?).1
      = (baseUrl ++ "-") ++ (natToString (pageParam?.getD 0) ++ ".json") ∧
    (fetchFailed (generateFetchHandler baseUrl fetchFn pageParam?).2 = true ↔
      (fetchFn ((baseUrl ++ "-") ++ (natToString (pageParam?.getD 0) ++ ".json"))).ok
        = false) ∧
    (fetchNextPage s).requests = s.requests ++ [c] := by
  refine ⟨?_, ?_, ?_⟩
  · simp only [generateFetchHandler]
    split <;> rfl
  · simp only [generateFetchHandler, fetchFailed]
    cases hok : (fetchFn ((baseUrl ++ "-") ++ (natToString (pageParam?.getD 0) ++ ".json"))).ok with
    | false => simp [hok]
    | true => simp [hok]
  · cases hl : s.pages.getLast? with
    | none => rw [hl] at h; simp at h
    | some p =>
      rw [hl] at h
      simp only [Option.some_bind, getNextPageParam] at h
      simp [fetchNextPage, hl, h]

/-- A transport that always answers with a non-ok response. -/
def failFetch : String → Response := fun _ => Response.mk false pageB

/-- Witness for C7 with a concrete base URL, failing transport and the ready
state whose last page's cursor is 1. -/
theorem fetch_protocol_witness :
    (generateFetchHandler "base" failFetch (some 1)).1
      = ("base" ++ "-") ++ (natToString ((some 1).getD 0) ++ ".json") ∧
    (fetchFailed (generateFetchHandler "base" failFetch (some 1)).2 = true ↔
      (failFetch (("base" ++ "-") ++ (natToString ((some 1).getD 0) ++ ".json"))).ok
        = false) ∧
    (fetchNextPage readyState).requests = readyState.requests ++ [1] :=
  fetch_protocol "base" failFetch (some 1) readyState 1 (by decide)

/-- C8: with the feed element attached, the scroll listener invokes `loadNext`
exactly when the element's bottom edge is at most the viewport height, and the
per-render check is the very same check the scroll listener runs. -/
theorem scroll_check_spec (rect : DOMRect) (innerHeight : Int) (s : FeedQueryState) :
    (rect.bottom ≤ innerHeight → onScroll (some rect) innerHeight s = loadNext s) ∧
    (¬ rect.bottom ≤ innerHeight → onScroll (some rect) innerHeight s = s) ∧
    renderPassCheck (some rect) innerHeight s = onScroll (some rect) innerHeight s := by
  refine ⟨?_, ?_, rfl⟩
  · intro h
    simp [onScroll, checkScrollState, h]
  · intro h
    simp [onScroll, checkScrollState, h]

/-- Witness for C8: a bottom edge inside the viewport triggers `loadNext`, one
below it does not. -/
theorem scroll_check_spec_witness :
    onScroll (some (DOMRect.mk 10)) 20 readyState = loadNext readyState ∧
    onScroll (some (DOMRect.mk 30)) 20 readyState = readyState :=
  ⟨(scroll_check_spec (DOMRect.mk 10) 20 readyState).1 (by decide),
   (scroll_check_spec (DOMRect.mk 30) 20 readyState).2.1 (by decide)⟩

/-- C3 counterexample: with an in-flight fetch and the last fetched page carrying
`nextCount = 0` (page `pageZeroCount`, with no posts), the merged list does not
have length (sum of fetched items) + `nextCount` = 0 + 0: the generator treats a
zero count like an absent one and appends the default number of placeholders. -/
theorem inflight_length_counterexample :
    ¬ ((feedItems pcEx (some [pageZeroCount]) true).length
        = ([pageZeroCount].map (fun p => p.posts.length)).sum + 0) := by
  decide

/-- C3 amended: while a fetch is in flight the merged list's length equals the
sum of the fetched pages' item counts plus `nextCount` when the last page's hint
is present and nonzero — falling back to the fixed default page size when the
hint is absent or zero — and the trailing entries are exactly the generated
Placeholder Items, whose keys are pairwise distinct. -/
theorem inflight_merged_shape (pc : PageContext) (pages : List FeedMetadataJson) :
    (feedItems pc (some pages) true).length
      = (pages.map (fun p => p.posts.length)).sum
        + jsOrDefault (pages.getLast?.bind (fun p => p.nextCount))
            constants.postsPerFeedPage ∧
    (feedItems pc (some pages) true).drop ((pages.map (fun p => p.posts.length)).sum)
      = (generatePostPlaceholders "next" (pages.getLast?.bind (fun p => p.nextCount))).map
          FeedItem.placeholder ∧
    ((generatePostPlaceholders "next" (pages.getLast?.bind (fun p => p.nextCount))).map
        (fun ph => ph.key)).Nodup := by
  have hfi : feedItems pc (some pages) true
      = (pages.map (fun page => page.posts)).flatten.map
          (fun j => FeedItem.post (jsonToPost j))
        ++ (generatePostPlaceholders "next"
              (pages.getLast?.bind (fun p => p.nextCount))).map FeedItem.placeholder := rfl
  have hbase : ((pages.map (fun page => page.posts)).flatten.map
      (fun j => FeedItem.post (jsonToPost j))).length
      = (pages.map (fun p => p.posts.length)).sum := by
    simp only [List.length_map, List.length_flatten, List.map_map]
    congr 1
  refine ⟨?_, ?_, generatePostPlaceholders_keys_nodup "next" _⟩
  · rw [hfi, List.length_append, hbase]
    simp [generatePostPlaceholders]
  · rw [hfi]
    exact List.drop_left' hbase

/-- C9: a `nextCount` of zero falls back to the fixed default page size exactly
like an absent `nextCount` (JavaScript `||` treats 0 as falsy), so for every
count hint the generator produces at least one placeholder. -/
theorem placeholders_zero_fallback (keyPref : String) :
    generatePostPlaceholders keyPref (some 0) = generatePostPlaceholders keyPref none ∧
    (generatePostPlaceholders keyPref (some 0)).length = constants.postsPerFeedPage ∧
    ∀ count : Option Nat, 0 < (generatePostPlaceholders keyPref count).length := by
  refine ⟨rfl, ?_, ?_⟩
  · simp [generatePostPlaceholders, jsOrDefault]
  · intro count
    simp only [generatePostPlaceholders, List.length_map, List.length_range]
    cases count with
    | none => simp [jsOrDefault, constants.postsPerFeedPage]
    | some c =>
      simp only [jsOrDefault]
      split
      · simp [constants.postsPerFeedPage]
      · omega

/-- C10: when the query has no data object at all, `feedItems` falls back to the
initial page context's posts (converted to items, with the in-flight placeholders
appended when a fetch is in flight); it is a total function, so the consumer
always receives a defined list. -/
theorem feedItems_no_data_fallback (pc : PageContext) (fetching : Bool) :
    feedItems pc none fetching
      = pc.feedMetadata.posts.map (fun j => FeedItem.post (jsonToPost j))
        ++ (if fetching then
              (generatePostPlaceholders "next" none).map FeedItem.placeholder
            else []) := by
  cases fetching with
  | false => simp [feedItems]
  | true => rfl

end Zito
